import Mathlib

/-!
Verification development for the live audio session controller of the chat
client: the PCM codec and base64 transport helpers of the services module
(`encode`, `decode`, `createPcmBlob`, `decodeAudioData`) and the session
state machine of `src/components/VoiceChatView.tsx` (connect, disconnect,
cleanup, message dispatch, playback scheduling, voice-activity detection).

Samples are modelled as rationals.  Every floating-point operation the code
performs on them (multiplication and division by the power of two 32768,
truncation to an integer) is exact in binary floating point for the
magnitudes involved, so the rational model computes the same values.
-/

namespace VoiceChat

/-! ## Base64 transport (the functions `encode` and `decode` of the services module)

Byte sequences are lists of naturals below 256; base64 text is modelled as the
list of character codes the code builds with `btoa` / reads with `atob`. -/

/-- Character code of position `n` of the base64 alphabet used by `btoa`. -/
def b64Char (n : ℕ) : ℕ :=
  if n < 26 then 65 + n
  else if n < 52 then 97 + (n - 26)
  else if n < 62 then 48 + (n - 52)
  else if n = 62 then 43
  else 47

/-- Value of a base64 alphabet character code, as read back by `atob`. -/
def b64CharVal (c : ℕ) : ℕ :=
  if 65 ≤ c ∧ c ≤ 90 then c - 65
  else if 97 ≤ c ∧ c ≤ 122 then c - 97 + 26
  else if 48 ≤ c ∧ c ≤ 57 then c - 48 + 52
  else if c = 43 then 62
  else if c = 47 then 63
  else 0

/-- The services function `encode`: bytes to base64 character codes, three
bytes per four output characters, padded with the code 61 (the equals sign). -/
def encodeB64 : List ℕ → List ℕ
  | [] => []
  | [a] => [b64Char (a / 4), b64Char ((a % 4) * 16), 61, 61]
  | [a, b] => [b64Char (a / 4), b64Char ((a % 4) * 16 + b / 16), b64Char ((b % 16) * 4), 61]
  | a :: b :: c :: rest =>
      b64Char (a / 4) :: b64Char ((a % 4) * 16 + b / 16) ::
      b64Char ((b % 16) * 4 + c / 64) :: b64Char (c % 64) :: encodeB64 rest

/-- The services function `decode`: base64 character codes back to bytes. -/
def decodeB64 : List ℕ → List ℕ
  | c0 :: c1 :: c2 :: c3 :: rest =>
      let v0 := b64CharVal c0
      let v1 := b64CharVal c1
      if c2 = 61 then [v0 * 4 + v1 / 16]
      else
        let v2 := b64CharVal c2
        if c3 = 61 then [v0 * 4 + v1 / 16, (v1 % 16) * 16 + v2 / 4]
        else (v0 * 4 + v1 / 16) :: ((v1 % 16) * 16 + v2 / 4) ::
             ((v2 % 4) * 64 + b64CharVal c3) :: decodeB64 rest
  | _ => []

/-! ## PCM samples (createPcmBlob and decodeAudioData of the services module) -/

/-- Truncation of a rational toward zero, the JavaScript ToIntegerOrInfinity step. -/
def truncQ (x : ℚ) : ℤ := if 0 ≤ x then ⌊x⌋ else ⌈x⌉

/-- JavaScript conversion of a number to a signed 16-bit integer, as performed
by assignment into an Int16Array: truncate toward zero, then wrap modulo
2 to the 16th into the range -32768 to 32767. -/
def jsToInt16 (x : ℚ) : ℤ := (truncQ x + 32768) % 65536 - 32768

/-- Little-endian byte pair of a signed 16-bit value, as laid out by an
Int16Array buffer viewed through a Uint8Array. -/
def int16ToBytes (v : ℤ) : List ℕ :=
  [((v % 65536).toNat) % 256, ((v % 65536).toNat) / 256]

/-- Byte layout of a whole Int16Array, element by element. -/
def int16sToBytes : List ℤ → List ℕ
  | [] => []
  | v :: vs => int16ToBytes v ++ int16sToBytes vs

/-- Reinterpretation of a byte pair as a signed little-endian 16-bit integer,
as performed by constructing an Int16Array over the byte buffer. -/
def bytesToInt16 (b0 b1 : ℕ) : ℤ :=
  if b0 + 256 * b1 < 32768 then (b0 + 256 * b1 : ℤ) else (b0 + 256 * b1 : ℤ) - 65536

/-- Whole-buffer reinterpretation as an Int16Array (an odd trailing byte
cannot occur on the paths we reason about; the constructor rejects it). -/
def bytesToInt16s : List ℕ → List ℤ
  | b0 :: b1 :: rest => bytesToInt16 b0 b1 :: bytesToInt16s rest
  | _ => []

/-- The services function `createPcmBlob`, up to the base64 step: scale each
sample by 32768, convert through Int16Array assignment, lay out little-endian. -/
def createPcmBytes (xs : List ℚ) : List ℕ :=
  int16sToBytes (xs.map fun x => jsToInt16 (x * 32768))

/-- The data field of the blob produced by `createPcmBlob`: the base64
character codes of the packed samples.  The accompanying constant mime tag
`audio/pcm;rate=16000` carries no information and is omitted. -/
def createPcmBlobData (xs : List ℚ) : List ℕ :=
  encodeB64 (createPcmBytes xs)

/-- The services function `decodeAudioData` on raw bytes.  Two failure
paths of the program are modelled as the error case: constructing
`new Int16Array(data.buffer)` throws a RangeError when the byte length is
odd, and `ctx.createBuffer(numChannels, frameCount, rate)` throws a
NotSupportedError when the frame count passed through Web IDL truncation is
zero — an empty payload, a payload shorter than one full frame, or a
channel count of zero (whose Infinity frame count converts to 0).
Otherwise the samples are de-interleaved into `numChannels` channels of
`frameCount = length / numChannels` frames, each divided by 32768.  Writes
past the end of a channel buffer that the fractional loop bound would
attempt are discarded by the typed array, so the effective channel length
is the floor division. -/
def decodeAudioSamples (bytes : List ℕ) (numChannels : ℕ) :
    Except Unit (List (List ℚ)) :=
  if bytes.length % 2 ≠ 0 then .error ()
  else
    let ints := bytesToInt16s bytes
    let frameCount := ints.length / numChannels
    if frameCount = 0 then .error ()
    else
      .ok ((List.range numChannels).map fun ch =>
        (List.range frameCount).map fun i =>
          ((ints.getD (i * numChannels + ch) 0 : ℤ) : ℚ) / 32768)

/-! ## Controller data model (VoiceChatView.tsx) -/

/-- Lifecycle status of the session controller. -/
inductive Status
  | idle
  | connecting
  | connected
  | error
deriving DecidableEq, Repr

/-- Author of a transcript turn: `user` or `model` in the source. -/
inductive Author
  | user
  | model
deriving DecidableEq, Repr

/-- A committed transcript turn.  The uuid `id` and the mutable `feedback`
field play no role in the claims and are omitted; `timestamp` is the ISO
string taken once per commit. -/
structure TranscriptItem where
  author : Author
  text : String
  timestamp : String
deriving DecidableEq, Repr

/-- VAD energy threshold, `VAD_ENERGY_THRESHOLD = 0.01`. -/
def VAD_ENERGY_THRESHOLD : ℚ := 1 / 100

/-- VAD silence timeout in milliseconds, `VAD_SILENCE_TIMEOUT = 800`. -/
def VAD_SILENCE_TIMEOUT : ℚ := 800

/-- State of one VoiceChatView instance: the React state hooks, the refs, and
the two closure snapshots the `onmessage` callback captured when it was
created.  Hardware and session handles are opaque numeric tokens held in
options, mirroring the nullable refs.  `sources` is the ActiveSourceSet as a
list of unit identities; `stoppedSources` records every unit that has been
force-stopped, so that force-stopping is observable.  `sentBlobs` logs the
encoded microphone frames passed to `sendRealtimeInput`. -/
structure CtrlState where
  status : Status
  transcript : List TranscriptItem
  currentInput : String
  currentOutput : String
  isSpeaking : Bool
  capturedInput : String
  capturedOutput : String
  session : Option ℕ
  inputCtx : Option ℕ
  outputCtx : Option ℕ
  mediaStream : Option ℕ
  scriptProcessor : Option ℕ
  sources : List ℕ
  stoppedSources : List ℕ
  nextStartTime : ℚ
  silenceTimer : Option ℚ
  nextId : ℕ
  sentBlobs : List (List ℕ)
deriving DecidableEq, Repr

/-- Initial component state: all hooks at their useState defaults, all refs
null, the playback cursor at 0. -/
def initState : CtrlState :=
  { status := Status.idle
    transcript := []
    currentInput := ""
    currentOutput := ""
    isSpeaking := false
    capturedInput := ""
    capturedOutput := ""
    session := none
    inputCtx := none
    outputCtx := none
    mediaStream := none
    scriptProcessor := none
    sources := []
    stoppedSources := []
    nextStartTime := 0
    silenceTimer := none
    nextId := 0
    sentBlobs := [] }

/-- One inbound live-server message, restricted to the fields the handler
reads.  `audioData` carries the bytes of `serverContent.modelTurn` inline
audio after base64 decoding.  `interrupted` models the remote interruption
flag of the wire protocol; the handler in the source never reads it. -/
structure ServerMessage where
  outputTranscription : Option String
  inputTranscription : Option String
  turnComplete : Bool
  audioData : Option (List ℕ)
  interrupted : Bool
deriving DecidableEq, Repr

/-- JavaScript String.prototype.trim: remove whitespace from both ends.
Modelled over the character list (the builtin String.trim is equivalent but
is defined by well-founded recursion and does not reduce in the kernel). -/
def jsTrim (s : String) : String :=
  String.mk (((s.data.dropWhile Char.isWhitespace).reverse.dropWhile
    Char.isWhitespace).reverse)

/-! ## Handlers -/

/-- The `cleanup` callback: cancel the silence timer, detach and null the
processor node, stop the microphone tracks, force-stop and clear the source
set, close and null the session promise and both audio contexts.  Every step
is guarded in the source (optional chaining, closed-state checks, caught
promises), so the whole procedure is total.  It touches neither the React
state hooks nor the playback cursor. -/
def cleanup (s : CtrlState) : CtrlState :=
  { s with
    silenceTimer := none
    scriptProcessor := none
    mediaStream := none
    sources := []
    stoppedSources := s.stoppedSources ++ s.sources
    session := none
    inputCtx := none
    outputCtx := none }

/-- The `handleDisconnect` callback: set status to idle for immediate UI
feedback, run cleanup, clear both pending accumulators and the speaking flag. -/
def handleDisconnect (s : CtrlState) : CtrlState :=
  let s1 := cleanup { s with status := Status.idle }
  { s1 with currentInput := "", currentOutput := "", isSpeaking := false }

/-- The `onerror` callback of the live session: log, set status to error, run
cleanup. -/
def handleError (s : CtrlState) : CtrlState :=
  cleanup { s with status := Status.error }

/-- The `onclose` callback: a functional status update that moves connected
or connecting to idle and leaves any other status alone. -/
def handleClose (s : CtrlState) : CtrlState :=
  { s with status :=
      if s.status = Status.connected ∨ s.status = Status.connecting then Status.idle
      else s.status }

/-- The `handleConnect` callback up to the rendering of its asynchronous
effects.  A connect while connected or connecting returns before doing
anything.  Otherwise status becomes connecting and transcript, accumulators
and speaking flag are reset; on successful device acquisition the media
stream, both contexts and the session promise are installed, the playback
cursor is reset to 0, and the message callback closes over the accumulator
values of the render that created it (`capturedInput` / `capturedOutput`);
on acquisition failure status becomes error. -/
def handleConnect (s : CtrlState) (acquireOk : Bool) : CtrlState :=
  if s.status = Status.connected ∨ s.status = Status.connecting then s
  else
    let s1 := { s with
      status := Status.connecting
      transcript := ([] : List TranscriptItem)
      currentInput := ""
      currentOutput := ""
      isSpeaking := false }
    if acquireOk then
      { s1 with
        mediaStream := some 0
        inputCtx := some 1
        outputCtx := some 2
        nextStartTime := 0
        session := some 3
        capturedInput := s.currentInput
        capturedOutput := s.currentOutput }
    else { s1 with status := Status.error }

/-- The `onopen` callback: status becomes connected; if the media stream and
input context are present, the script processor is created and wired. -/
def handleOpen (s : CtrlState) : CtrlState :=
  let s1 := { s with status := Status.connected }
  if s1.mediaStream.isSome ∧ s1.inputCtx.isSome then
    { s1 with scriptProcessor := some 4 }
  else s1

/-- Playback scheduling step for one decoded chunk, mirroring the cursor
discipline of the message handler: clamp the cursor to the current device
time, start the chunk there, advance the cursor by the chunk duration.
Returns the assigned start time and the new cursor. -/
def scheduleChunk (cursor now dur : ℚ) : ℚ × ℚ :=
  let st := max cursor now
  (st, st + dur)

/-- Start times assigned to a sequence of chunks given as (arrival device
time, duration) pairs, played through `scheduleChunk` from an initial cursor. -/
def scheduleRun : ℚ → List (ℚ × ℚ) → List ℚ
  | _, [] => []
  | cursor, (now, dur) :: rest =>
      let p := scheduleChunk cursor now dur
      p.1 :: scheduleRun p.2 rest

/-- The `onmessage` callback.  `now` is the output context device time at
which the message is handled and `ts` the ISO timestamp string taken at a
turn commit.  The local accumulator copies start from the closure snapshots
(`capturedInput` / `capturedOutput`), not from the live React state: the
callback closed over the state values of the render in which it was created.
For an inline audio chunk the cursor clamp happens before the buffer decode
(the source assigns `nextStartTimeRef` before awaiting `decodeAudioData`), so
a failed decode leaves the clamp in place and schedules nothing. -/
def handleMessage (s : CtrlState) (m : ServerMessage) (now : ℚ) (ts : String) :
    CtrlState :=
  let localOut0 := s.capturedOutput
  let localIn0 := s.capturedInput
  let s1 := match m.outputTranscription with
    | some t => { s with currentOutput := s.currentOutput ++ t }
    | none => s
  let localOut := match m.outputTranscription with
    | some t => localOut0 ++ t
    | none => localOut0
  let s2 := match m.inputTranscription with
    | some t => { s1 with currentInput := s1.currentInput ++ t }
    | none => s1
  let localIn := match m.inputTranscription with
    | some t => localIn0 ++ t
    | none => localIn0
  let s3 :=
    if m.turnComplete then
      { s2 with
        transcript := s2.transcript
          ++ (if jsTrim localIn ≠ "" then [⟨Author.user, localIn, ts⟩] else [])
          ++ (if jsTrim localOut ≠ "" then [⟨Author.model, localOut, ts⟩] else [])
        currentInput := ""
        currentOutput := "" }
    else s2
  match m.audioData with
  | some bytes =>
      if s3.outputCtx.isSome then
        match decodeAudioSamples bytes 1 with
        | .ok chans =>
            let dur : ℚ := ((chans.headD []).length : ℚ) / 24000
            let p := scheduleChunk s3.nextStartTime now dur
            { s3 with
              nextStartTime := p.2
              sources := s3.sources ++ [s3.nextId]
              nextId := s3.nextId + 1 }
        | .error _ => { s3 with nextStartTime := max s3.nextStartTime now }
      else s3
  | none => s3

/-- The `onaudioprocess` callback: compute the frame RMS energy, and when it
exceeds the threshold set the speaking flag and re-arm the silence timer to
fire `VAD_SILENCE_TIMEOUT` later; the encoded frame is transmitted
unconditionally either way.  The comparison `sqrt (sumSq / n) > 1/100` is
stated in the equivalent squared form `sumSq * 10000 > n`, exact because both
sides are nonnegative and squaring is monotone (and `0/0` compares false on
both sides). -/
def handleAudioFrame (s : CtrlState) (t : ℚ) (frame : List ℚ) : CtrlState :=
  let sumSq := (frame.map fun x => x * x).sum
  let loud := sumSq * 10000 > (frame.length : ℚ)
  let s1 := { s with sentBlobs := s.sentBlobs ++ [createPcmBlobData frame] }
  if loud then
    { s1 with isSpeaking := true, silenceTimer := some (t + VAD_SILENCE_TIMEOUT) }
  else s1

/-- Expiry of the silence timer at time `t`.  A JavaScript timer fires only
if it is still the armed one — `clearTimeout` on re-arm cancels the previous
timer — so the expiry takes effect exactly when the armed deadline is `t`. -/
def handleSilenceTimer (s : CtrlState) (t : ℚ) : CtrlState :=
  if s.silenceTimer = some t then
    { s with isSpeaking := false, silenceTimer := none }
  else s

/-- Whether a frame exceeds the VAD energy threshold, in the same squared
form used by `handleAudioFrame`. -/
def frameLoud (frame : List ℚ) : Bool :=
  decide ((frame.map fun x => x * x).sum * 10000 > (frame.length : ℚ))

/-- Events seen by the voice-activity detector: a captured audio frame, or
the firing of the silence timer. -/
inductive VadEvent
  | audioFrame (t : ℚ) (samples : List ℚ)
  | timerFire (t : ℚ)

/-- Dispatch of one VAD-relevant event. -/
def vadStep (s : CtrlState) : VadEvent → CtrlState
  | VadEvent.audioFrame t f => handleAudioFrame s t f
  | VadEvent.timerFire t => handleSilenceTimer s t

/-- A run of VAD-relevant events in order. -/
def vadRun (s : CtrlState) (es : List VadEvent) : CtrlState :=
  es.foldl vadStep s

/-- Time at which an event occurs. -/
def eventTime : VadEvent → ℚ
  | VadEvent.audioFrame t _ => t
  | VadEvent.timerFire t => t

/-! ## Concrete states and messages used as inputs -/

/-- A connected state with one scheduled playback unit and a nonzero cursor. -/
def playingState : CtrlState :=
  { initState with
    status := Status.connected
    session := some 3
    inputCtx := some 1
    outputCtx := some 2
    mediaStream := some 0
    scriptProcessor := some 4
    sources := [0]
    nextId := 1
    nextStartTime := 2 }

/-- A message carrying only an input transcription delta. -/
def inputDeltaMsg (t : String) : ServerMessage :=
  { outputTranscription := none
    inputTranscription := some t
    turnComplete := false
    audioData := none
    interrupted := false }

/-- A message carrying only the turn-complete signal. -/
def turnCompleteMsg : ServerMessage :=
  { outputTranscription := none
    inputTranscription := none
    turnComplete := true
    audioData := none
    interrupted := false }

/-- A message carrying only an inline audio chunk. -/
def audioOnlyMsg (bytes : List ℕ) : ServerMessage :=
  { outputTranscription := none
    inputTranscription := none
    turnComplete := false
    audioData := some bytes
    interrupted := false }

/-- A message carrying only the remote interruption flag. -/
def interruptedMsg : ServerMessage :=
  { outputTranscription := none
    inputTranscription := none
    turnComplete := false
    audioData := none
    interrupted := true }

/-- Two chunks of duration 1: the first arrives at time 0, the second at time
one half, before the first ends. -/
def demoChunks : List (ℚ × ℚ) := [(0, 1), (1 / 2, 1)]

/-- A one-sample frame above the energy threshold. -/
def loudFrame : List ℚ := [1]

/-- A one-sample silent frame. -/
def quietFrame : List ℚ := [0]

/-- An idle state still holding a committed turn and a pending accumulator
from an earlier session. -/
def staleState : CtrlState :=
  { initState with
    transcript := [{ author := Author.user, text := "x", timestamp := "t" }]
    currentInput := "y"
    isSpeaking := true }


/-! ### Base64 round trip -/

theorem b64CharVal_b64Char : ∀ n < 64, b64CharVal (b64Char n) = n := by decide

theorem b64Char_ne_pad : ∀ n < 64, b64Char n ≠ 61 := by decide

theorem decodeB64_encodeB64 (l : List ℕ) (h : ∀ b ∈ l, b < 256) :
    decodeB64 (encodeB64 l) = l := by
  match l with
  | [] => rfl
  | [a] =>
    have ha : a < 256 := h a (by simp)
    have h0 : a / 4 < 64 := by omega
    have h1 : (a % 4) * 16 < 64 := by omega
    simp only [encodeB64, decodeB64, b64CharVal_b64Char _ h0, b64CharVal_b64Char _ h1,
      ite_true, List.cons.injEq, and_true]
    omega
  | [a, b] =>
    have ha : a < 256 := h a (by simp)
    have hb : b < 256 := h b (by simp)
    have h0 : a / 4 < 64 := by omega
    have h1 : (a % 4) * 16 + b / 16 < 64 := by omega
    have h2 : (b % 16) * 4 < 64 := by omega
    simp only [encodeB64, decodeB64, b64CharVal_b64Char _ h0, b64CharVal_b64Char _ h1,
      b64CharVal_b64Char _ h2, if_neg (b64Char_ne_pad _ h2), ite_true,
      List.cons.injEq, and_true]
    omega
  | a :: b :: c :: rest =>
    have ha : a < 256 := h a (by simp)
    have hb : b < 256 := h b (by simp)
    have hc : c < 256 := h c (by simp)
    have hrest : ∀ x ∈ rest, x < 256 := fun x hx => h x (by simp [hx])
    have ih := decodeB64_encodeB64 rest hrest
    have h0 : a / 4 < 64 := by omega
    have h1 : (a % 4) * 16 + b / 16 < 64 := by omega
    have h2 : (b % 16) * 4 + c / 64 < 64 := by omega
    have h3 : c % 64 < 64 := by omega
    simp only [encodeB64, decodeB64, b64CharVal_b64Char _ h0, b64CharVal_b64Char _ h1,
      b64CharVal_b64Char _ h2, b64CharVal_b64Char _ h3,
      if_neg (b64Char_ne_pad _ h2), if_neg (b64Char_ne_pad _ h3), ih,
      List.cons.injEq, and_true]
    omega

/-! ### Int16 byte layout round trip -/

theorem int16ToBytes_lt (v : ℤ) : ∀ b ∈ int16ToBytes v, b < 256 := by
  intro b hb
  have h0 : 0 ≤ v % 65536 := Int.emod_nonneg v (by norm_num)
  have h1 : v % 65536 < 65536 := Int.emod_lt_of_pos v (by norm_num)
  simp only [int16ToBytes, List.mem_cons, List.mem_singleton] at hb
  rcases hb with rfl | rfl | h
  · omega
  · omega
  · simp at h

theorem int16sToBytes_lt (vs : List ℤ) : ∀ b ∈ int16sToBytes vs, b < 256 := by
  induction vs with
  | nil => intro b hb; simp [int16sToBytes] at hb
  | cons v vs ih =>
    intro b hb
    simp only [int16sToBytes, List.mem_append] at hb
    rcases hb with hb | hb
    · exact int16ToBytes_lt v b hb
    · exact ih b hb

theorem int16sToBytes_length (vs : List ℤ) :
    (int16sToBytes vs).length = 2 * vs.length := by
  induction vs with
  | nil => rfl
  | cons v vs ih => simp [int16sToBytes, int16ToBytes, ih]; omega

theorem bytesToInt16s_int16sToBytes (vs : List ℤ)
    (h : ∀ v ∈ vs, -32768 ≤ v ∧ v < 32768) :
    bytesToInt16s (int16sToBytes vs) = vs := by
  induction vs with
  | nil => rfl
  | cons v vs ih =>
    have hv := h v (by simp)
    have hrest := ih fun x hx => h x (by simp [hx])
    have h0 : 0 ≤ v % 65536 := Int.emod_nonneg v (by norm_num)
    have h1 : v % 65536 < 65536 := Int.emod_lt_of_pos v (by norm_num)
    simp only [int16sToBytes, int16ToBytes, List.cons_append, List.nil_append,
      bytesToInt16s, hrest, bytesToInt16]
    congr 1
    have hmod : v % 65536 = v ∨ v % 65536 = v + 65536 := by omega
    rcases hmod with hm | hm <;> split <;> omega

/-- Range of the Int16Array conversion. -/
theorem jsToInt16_range (x : ℚ) : -32768 ≤ jsToInt16 x ∧ jsToInt16 x < 32768 := by
  unfold jsToInt16
  have h0 : 0 ≤ (truncQ x + 32768) % 65536 := Int.emod_nonneg _ (by norm_num)
  have h1 : (truncQ x + 32768) % 65536 < 65536 := Int.emod_lt_of_pos _ (by norm_num)
  omega

/-! ### Truncation accuracy -/

theorem truncQ_bounds (x : ℚ) (h1 : -32768 ≤ x) (h2 : x < 32768) :
    -32768 ≤ truncQ x ∧ truncQ x < 32768 := by
  unfold truncQ
  split
  case isTrue h =>
    constructor
    · have : (0 : ℤ) ≤ ⌊x⌋ := Int.floor_nonneg.mpr h
      omega
    · exact Int.floor_lt.mpr (by exact_mod_cast h2)
  case isFalse h =>
    push_neg at h
    constructor
    · have hc : (-32768 : ℚ) ≤ (⌈x⌉ : ℚ) := le_trans h1 (Int.le_ceil x)
      exact_mod_cast hc
    · have hc : ⌈x⌉ ≤ (0 : ℤ) := Int.ceil_le.mpr (by exact_mod_cast le_of_lt h)
      omega

theorem truncQ_err (x : ℚ) : |x - truncQ x| < 1 := by
  unfold truncQ
  split
  case isTrue h =>
    rw [abs_sub_lt_iff]
    exact ⟨by linarith [Int.lt_floor_add_one x], by linarith [Int.floor_le x]⟩
  case isFalse h =>
    rw [abs_sub_lt_iff]
    exact ⟨by linarith [Int.le_ceil x], by linarith [Int.ceil_lt_add_one x]⟩

/-- For a sample in the half-open interval from -1 up to (excluding) 1, the
Int16Array conversion performs no wraparound: it is plain truncation. -/
theorem jsToInt16_no_wrap (x : ℚ) (h1 : -1 ≤ x) (h2 : x < 1) :
    jsToInt16 (x * 32768) = truncQ (x * 32768) := by
  have hb := truncQ_bounds (x * 32768) (by linarith) (by linarith)
  unfold jsToInt16
  rw [Int.emod_eq_of_lt (by omega) (by omega)]
  omega

/-- Per-sample round-trip error bound on the half-open interval. -/
theorem sample_err (x : ℚ) (h1 : -1 ≤ x) (h2 : x < 1) :
    |((jsToInt16 (x * 32768) : ℤ) : ℚ) / 32768 - x| ≤ 1 / 32768 := by
  rw [jsToInt16_no_wrap x h1 h2]
  have he := truncQ_err (x * 32768)
  rw [abs_sub_lt_iff] at he
  rw [abs_sub_le_iff]
  constructor
  · linarith [he.2]
  · linarith [he.1]

theorem range_map_getD {α β : Type} (l : List α) (d : α) (f : α → β) :
    (List.range l.length).map (fun i => f (l.getD i d)) = l.map f := by
  induction l with
  | nil => simp
  | cons a l ih =>
    rw [List.length_cons, List.range_succ_eq_map]
    simp only [List.map_cons, List.map_map, List.getD_cons_zero]
    congr 1

/-- Evaluation of the whole inbound decode on an encoded nonempty frame:
base64 round-trips, the byte count is even and yields at least one frame,
the Int16Array recovers the converted samples, and the single channel
divides each by 32768. -/
theorem decode_encode_pipeline (xs : List ℚ) (hne : xs ≠ []) :
    decodeAudioSamples (decodeB64 (createPcmBlobData xs)) 1
      = Except.ok [xs.map fun x => ((jsToInt16 (x * 32768) : ℤ) : ℚ) / 32768] := by
  have hbytes : decodeB64 (createPcmBlobData xs) = createPcmBytes xs :=
    decodeB64_encodeB64 _ (int16sToBytes_lt _)
  rw [hbytes]
  unfold createPcmBytes
  set ints := xs.map fun x => jsToInt16 (x * 32768) with hints
  have hbound : ∀ v ∈ ints, -32768 ≤ v ∧ v < 32768 := by
    intro v hv
    rw [hints] at hv
    simp only [List.mem_map] at hv
    obtain ⟨x, _, rfl⟩ := hv
    exact jsToInt16_range _
  have hlen : (int16sToBytes ints).length = 2 * ints.length :=
    int16sToBytes_length ints
  have hrt : bytesToInt16s (int16sToBytes ints) = ints :=
    bytesToInt16s_int16sToBytes ints hbound
  have hlen0 : ints.length ≠ 0 := by
    rw [hints]
    simpa using hne
  unfold decodeAudioSamples
  rw [if_neg (by omega)]
  simp only [hrt, Nat.div_one]
  rw [if_neg hlen0]
  simp only [List.range_succ, List.range_zero, List.nil_append,
    List.map_append, List.map_cons, List.map_nil, Nat.mul_one, Nat.add_zero]
  rw [range_map_getD ints 0 (fun v => ((v : ℤ) : ℚ) / 32768)]
  rw [hints, List.map_map]
  rfl

/-! ## Claim C1: turn commit -/

/-- Claim C1 (code_bug): on the spec scenario — input deltas of the words
مرحبا and بك in two messages, then a turn-complete — the pending accumulator
state correctly shows the concatenation, but the commit reads the stale
closure snapshot taken at connect time (empty), so no TranscriptTurn is
created at all, where the claim requires exactly one user turn whose text is
the concatenation. -/
theorem turn_commit_loses_accumulated_input :
    (let s0 := handleOpen (handleConnect initState true)
     let s1 := handleMessage s0 (inputDeltaMsg "مرحبا") 0 "t0"
     let s2 := handleMessage s1 (inputDeltaMsg " بك") 0 "t0"
     let s3 := handleMessage s2 turnCompleteMsg 0 "t1"
     s2.currentInput = "مرحبا بك" ∧ s3.transcript = [] ∧ s3.currentInput = "") := by
  exact ⟨by decide, by decide, by decide⟩

/-! ## Claim C2: interruption clears state -/

/-- Claim C2 counterexample: a remote interrupted message is not handled at
all — the state with one scheduled unit and cursor 2 is returned unchanged —
and the cleanup run on disconnect or error leaves the cursor at 2, not 0. -/
theorem interrupt_claim_false :
    handleMessage playingState interruptedMsg 3 "t" = playingState
    ∧ (cleanup playingState).sources = []
    ∧ (cleanup playingState).nextStartTime = 2
    ∧ ((2 : ℚ) ≠ 0) := by
  refine ⟨rfl, rfl, rfl, by norm_num⟩

/-- Claim C2 as amended: the cleanup procedure — run on user disconnect and
on remote error — force-stops every unit of the ActiveSourceSet and empties
the set, but leaves the playback cursor unchanged (the cursor is reset to 0
only by the next successful connect), and a remote interrupted message is
ignored entirely, changing nothing. -/
theorem cleanup_stops_all_sources (s : CtrlState) :
    ((cleanup s).sources = []
      ∧ (cleanup s).stoppedSources = s.stoppedSources ++ s.sources
      ∧ (cleanup s).nextStartTime = s.nextStartTime)
    ∧ ((handleDisconnect s).sources = []
      ∧ (handleDisconnect s).stoppedSources = s.stoppedSources ++ s.sources
      ∧ (handleDisconnect s).nextStartTime = s.nextStartTime)
    ∧ ((handleError s).sources = []
      ∧ (handleError s).stoppedSources = s.stoppedSources ++ s.sources
      ∧ (handleError s).nextStartTime = s.nextStartTime)
    ∧ (∀ (now : ℚ) (ts : String), handleMessage s interruptedMsg now ts = s)
    ∧ (s.status = Status.idle ∨ s.status = Status.error →
        (handleConnect s true).nextStartTime = 0) := by
  refine ⟨⟨rfl, rfl, rfl⟩, ⟨rfl, rfl, rfl⟩, ⟨rfl, rfl, rfl⟩, fun now ts => rfl, ?_⟩
  intro h
  have hn : ¬ (s.status = Status.connected ∨ s.status = Status.connecting) := by
    rcases h with h | h <;> simp [h]
  simp [handleConnect, hn]

/-- Witness for the amended C2 at the idle initial state and the playing
state. -/
theorem cleanup_stops_all_sources_witness :
    (initState.status = Status.idle ∨ initState.status = Status.error)
    ∧ (handleConnect initState true).nextStartTime = 0
    ∧ (cleanup playingState).sources = [] :=
  ⟨Or.inl rfl, (cleanup_stops_all_sources initState).2.2.2.2 (Or.inl rfl),
   (cleanup_stops_all_sources playingState).1.1⟩

/-! ## Claim C5: malformed inbound audio -/

/-- Claim C5 counterexample: a six-byte payload with two channels decodes
successfully although 6 is not a multiple of 2 * 2 — the constructor check
only rejects odd byte lengths — and on a decode failure the playback cursor
has already been clamped to the device time, so the session state is not
fully unchanged. -/
theorem malformed_claim_false :
    decodeAudioSamples [0, 0, 0, 0, 0, 0] 2 = Except.ok [[0], [0]]
    ∧ (6 % (2 * 2) ≠ 0)
    ∧ decodeAudioSamples [0] 1 = Except.error ()
    ∧ (handleMessage { playingState with nextStartTime := 0 } (audioOnlyMsg [0]) 5 "t").nextStartTime = 5
    ∧ ((5 : ℚ) ≠ 0) := by
  refine ⟨by norm_num [decodeAudioSamples, bytesToInt16s, bytesToInt16, List.range_succ],
    by decide, by norm_num [decodeAudioSamples], by decide, by norm_num⟩

/-- Claim C5 as amended: decoding an inbound audio payload fails exactly
when its byte length is odd (the Int16Array construction throws) or the
computed frame count — decoded samples divided by channelCount, truncated —
is zero (the zero-frame buffer construction throws; this covers the empty
payload, any even payload shorter than one full frame, and a channelCount
of zero).  An even byte length that is not a multiple of 2 * channelCount
but still yields at least one frame decodes, dropping the trailing samples.
When an inbound chunk fails to decode, that chunk alone is skipped and the
session is not torn down: status, transcript, both accumulators, the source
set and the session handle are unchanged, though the playback cursor has
already been clamped to max(cursor, device time). -/
theorem malformed_audio_behavior :
    (∀ (bytes : List ℕ) (nc : ℕ),
        decodeAudioSamples bytes nc = Except.error ()
          ↔ bytes.length % 2 ≠ 0 ∨ (bytesToInt16s bytes).length / nc = 0)
    ∧ (∀ (s : CtrlState) (bytes : List ℕ) (now : ℚ) (ts : String),
        decodeAudioSamples bytes 1 = Except.error () →
        (handleMessage s (audioOnlyMsg bytes) now ts).status = s.status
        ∧ (handleMessage s (audioOnlyMsg bytes) now ts).transcript = s.transcript
        ∧ (handleMessage s (audioOnlyMsg bytes) now ts).currentInput = s.currentInput
        ∧ (handleMessage s (audioOnlyMsg bytes) now ts).currentOutput = s.currentOutput
        ∧ (handleMessage s (audioOnlyMsg bytes) now ts).sources = s.sources
        ∧ (handleMessage s (audioOnlyMsg bytes) now ts).session = s.session
        ∧ (s.outputCtx.isSome = true →
            (handleMessage s (audioOnlyMsg bytes) now ts).nextStartTime
              = max s.nextStartTime now)) := by
  constructor
  · intro bytes nc
    unfold decodeAudioSamples
    by_cases h1 : bytes.length % 2 ≠ 0
    · simp [h1]
    · by_cases h2 : (bytesToInt16s bytes).length / nc = 0
      · simp [h1, h2]
      · simp [h1, h2]
  · intro s bytes now ts hdec
    by_cases hctx : s.outputCtx.isSome
    · simp [handleMessage, audioOnlyMsg, hdec, hctx]
    · simp [handleMessage, audioOnlyMsg, hdec, hctx]

/-- Witness for the amended C5 on a one-byte payload hitting the playing
state. -/
theorem malformed_audio_behavior_witness :
    (decodeAudioSamples [0] 1 = Except.error ()
      ↔ [0].length % 2 ≠ 0 ∨ (bytesToInt16s [0]).length / 1 = 0)
    ∧ (decodeAudioSamples [0] 1 = Except.error ())
    ∧ (handleMessage playingState (audioOnlyMsg [0]) 3 "t").transcript
        = playingState.transcript
    ∧ (handleMessage playingState (audioOnlyMsg [0]) 3 "t").nextStartTime
        = max playingState.nextStartTime 3 :=
  ⟨malformed_audio_behavior.1 [0] 1, rfl,
   (malformed_audio_behavior.2 playingState [0] 3 "t" rfl).2.1,
   (malformed_audio_behavior.2 playingState [0] 3 "t" rfl).2.2.2.2.2.2 rfl⟩

/-! ## Claim C3: codec round trip -/

/-- Claim C3 counterexample: the sample 1 is allowed by the claim, but
1 * 32768 = 32768 wraps to -32768 under the Int16Array conversion, so the
decoded sample is -1, an error of 2, far above 1/32768. -/
theorem codec_claim_false :
    decodeAudioSamples (decodeB64 (createPcmBlobData [1])) 1 = Except.ok [[-1]]
    ∧ ¬ |(-1 : ℚ) - 1| ≤ 1 / 32768 := by
  constructor
  · have h1 : jsToInt16 ((1 : ℚ) * 32768) = -32768 := by
      norm_num [jsToInt16, truncQ]
    have h2 : createPcmBlobData [1]
        = encodeB64 (int16sToBytes [jsToInt16 ((1 : ℚ) * 32768)]) := rfl
    rw [h2, h1]
    have h3 : encodeB64 (int16sToBytes [(-32768 : ℤ)]) = [65, 73, 65, 61] := by decide
    rw [h3]
    have h4 : decodeB64 [65, 73, 65, 61] = [0, 128] := by decide
    rw [h4]
    norm_num [decodeAudioSamples, bytesToInt16s, bytesToInt16, List.range_succ]
  · norm_num

/-- Claim C3 as amended: for every nonempty finite sequence of samples, each
at least -1 and strictly below 1, decoding the encoded frame produces one
channel of the same length in which every sample differs from the original
by at most 1/32768.  (At exactly 1 the scaled value 32768 wraps to -32768,
see the counterexample, so the closed right endpoint of the claim is
excluded; on the empty sequence the program throws from the zero-frame
buffer construction instead of decoding, so it is excluded too.) -/
theorem codec_roundtrip (xs : List ℚ) (hne : xs ≠ [])
    (h : ∀ x ∈ xs, -1 ≤ x ∧ x < 1) :
    ∃ ys : List ℚ,
      decodeAudioSamples (decodeB64 (createPcmBlobData xs)) 1 = Except.ok [ys]
      ∧ ys.length = xs.length
      ∧ ∀ i, i < xs.length → |ys.getD i 0 - xs.getD i 0| ≤ 1 / 32768 := by
  refine ⟨xs.map fun x => ((jsToInt16 (x * 32768) : ℤ) : ℚ) / 32768,
    decode_encode_pipeline xs hne, by simp, ?_⟩
  intro i hi
  have hm : i < (xs.map fun x => ((jsToInt16 (x * 32768) : ℤ) : ℚ) / 32768).length := by
    simpa using hi
  rw [List.getD_eq_getElem _ _ hm, List.getD_eq_getElem _ _ hi, List.getElem_map]
  have hx := h (xs[i]) (List.getElem_mem hi)
  exact sample_err _ hx.1 hx.2

/-- Witness for the amended C3 on the two-sample frame one half, minus one
third. -/
theorem codec_roundtrip_witness :
    (([(1 : ℚ) / 2, -1 / 3] : List ℚ) ≠ [])
    ∧ (∀ x ∈ [(1 : ℚ) / 2, -1 / 3], -1 ≤ x ∧ x < 1)
    ∧ ∃ ys : List ℚ,
        decodeAudioSamples (decodeB64 (createPcmBlobData [(1 : ℚ) / 2, -1 / 3])) 1
          = Except.ok [ys]
        ∧ ys.length = ([(1 : ℚ) / 2, -1 / 3] : List ℚ).length
        ∧ ∀ i, i < ([(1 : ℚ) / 2, -1 / 3] : List ℚ).length →
            |ys.getD i 0 - ([(1 : ℚ) / 2, -1 / 3] : List ℚ).getD i 0| ≤ 1 / 32768 := by
  have h : ∀ x ∈ [(1 : ℚ) / 2, -1 / 3], -1 ≤ x ∧ x < 1 := by
    intro x hx
    simp only [List.mem_cons, List.not_mem_nil, or_false] at hx
    rcases hx with rfl | rfl <;> norm_num
  exact ⟨by simp, h, codec_roundtrip _ (by simp) h⟩

/-! ## Claim C4: gapless playback -/

/-- Claim C4: for chunks whose arrival device times are strictly increasing
and each arrival falls before the end of the previously scheduled chunk, the
scheduler assigns chunk n the start time equal to the end time of chunk n-1:
no gap and no overlap. -/
theorem gapless_playback (chunks : List (ℚ × ℚ)) (c0 : ℚ)
    (hmono : ∀ i, i + 1 < chunks.length →
      (chunks.getD i (0, 0)).1 < (chunks.getD (i + 1) (0, 0)).1)
    (harr : ∀ i, i + 1 < chunks.length →
      (chunks.getD (i + 1) (0, 0)).1
        < (scheduleRun c0 chunks).getD i 0 + (chunks.getD i (0, 0)).2) :
    ∀ i, i + 1 < chunks.length →
      (scheduleRun c0 chunks).getD (i + 1) 0
        = (scheduleRun c0 chunks).getD i 0 + (chunks.getD i (0, 0)).2 := by
  induction chunks generalizing c0 with
  | nil => intro i hi; simp at hi
  | cons hd tl ih =>
    obtain ⟨n1, d1⟩ := hd
    intro i hi
    match i with
    | 0 =>
      match tl with
      | [] => simp at hi
      | (n2, d2) :: tl2 =>
        have h0 := harr 0 (by simp)
        simp only [scheduleRun, scheduleChunk, List.getD_cons_zero,
          List.getD_cons_succ] at h0 ⊢
        exact max_eq_left (le_of_lt h0)
    | j + 1 =>
      have hlen : j + 1 < tl.length := by simpa using hi
      have hmono2 : ∀ i, i + 1 < tl.length →
          (tl.getD i (0, 0)).1 < (tl.getD (i + 1) (0, 0)).1 := by
        intro i h
        have := hmono (i + 1) (by simp; omega)
        simpa using this
      have harr2 : ∀ i, i + 1 < tl.length →
          (tl.getD (i + 1) (0, 0)).1
            < (scheduleRun (max c0 n1 + d1) tl).getD i 0 + (tl.getD i (0, 0)).2 := by
        intro i h
        have := harr (i + 1) (by simp; omega)
        simpa [scheduleRun, scheduleChunk] using this
      have := ih (max c0 n1 + d1) hmono2 harr2 j hlen
      simpa [scheduleRun, scheduleChunk] using this

/-- Witness for C4 on the two demo chunks from cursor 0. -/
theorem gapless_playback_witness :
    (∀ i, i + 1 < demoChunks.length →
      (demoChunks.getD i (0, 0)).1 < (demoChunks.getD (i + 1) (0, 0)).1)
    ∧ (∀ i, i + 1 < demoChunks.length →
      (demoChunks.getD (i + 1) (0, 0)).1
        < (scheduleRun 0 demoChunks).getD i 0 + (demoChunks.getD i (0, 0)).2)
    ∧ (scheduleRun 0 demoChunks).getD 1 0
        = (scheduleRun 0 demoChunks).getD 0 0 + (demoChunks.getD 0 (0, 0)).2 := by
  have h1 : ∀ i, i + 1 < demoChunks.length →
      (demoChunks.getD i (0, 0)).1 < (demoChunks.getD (i + 1) (0, 0)).1 := by
    intro i h
    simp only [demoChunks, List.length_cons, List.length_nil] at h
    have hi : i = 0 := by omega
    subst hi
    norm_num [demoChunks]
  have h2 : ∀ i, i + 1 < demoChunks.length →
      (demoChunks.getD (i + 1) (0, 0)).1
        < (scheduleRun 0 demoChunks).getD i 0 + (demoChunks.getD i (0, 0)).2 := by
    intro i h
    simp only [demoChunks, List.length_cons, List.length_nil] at h
    have hi : i = 0 := by omega
    subst hi
    norm_num [demoChunks, scheduleRun, scheduleChunk]
  exact ⟨h1, h2, gapless_playback demoChunks 0 h1 h2 0 (by norm_num [demoChunks])⟩

/-! ## Claim C6: no double-connect -/

/-- Claim C6: a connect issued while the status is connected or connecting
returns without performing any action — the state, including the transcript,
both accumulators, the cursor and every held resource, is exactly as before. -/
theorem connect_noop_when_busy (s : CtrlState) (acquireOk : Bool)
    (h : s.status = Status.connected ∨ s.status = Status.connecting) :
    handleConnect s acquireOk = s := by
  unfold handleConnect
  rw [if_pos h]

/-- Witness for C6 at the concrete playing state. -/
theorem connect_noop_when_busy_witness :
    (playingState.status = Status.connected ∨ playingState.status = Status.connecting)
    ∧ handleConnect playingState true = playingState :=
  ⟨Or.inl rfl, connect_noop_when_busy playingState true (Or.inl rfl)⟩

/-! ## Claim C7: VAD debounce -/

/-- Helper invariant: once speaking with a silence deadline at least
`t0 + VAD_SILENCE_TIMEOUT`, any run of frames and timer firings whose times
lie in the window from `t0` up to (excluding) that deadline keeps the
speaking flag true: a timer firing in the window cannot match the armed
deadline, and a loud frame only pushes the deadline further out. -/
theorem vad_invariant (es : List VadEvent) (t0 : ℚ) :
    ∀ s : CtrlState, s.isSpeaking = true →
    (∃ d, s.silenceTimer = some d ∧ t0 + VAD_SILENCE_TIMEOUT ≤ d) →
    (∀ e ∈ es, t0 ≤ eventTime e ∧ eventTime e < t0 + VAD_SILENCE_TIMEOUT) →
    (vadRun s es).isSpeaking = true := by
  induction es with
  | nil => intro s hs _ _; simpa [vadRun] using hs
  | cons e es ih =>
    intro s hs hd hts
    obtain ⟨d, hdt, hdge⟩ := hd
    have hts2 : ∀ x ∈ es, t0 ≤ eventTime x ∧ eventTime x < t0 + VAD_SILENCE_TIMEOUT :=
      fun x hx => hts x (by simp [hx])
    have hte := hts e (List.mem_cons_self e es)
    have hstep : vadRun s (e :: es) = vadRun (vadStep s e) es := rfl
    rw [hstep]
    cases e with
    | audioFrame t f =>
      simp only [eventTime] at hte
      by_cases hl : ((f.map fun x => x * x).sum * 10000 > (f.length : ℚ))
      · refine ih _ ?_ ?_ hts2
        · simp [vadStep, handleAudioFrame, if_pos hl]
        · refine ⟨t + VAD_SILENCE_TIMEOUT, ?_, ?_⟩
          · simp [vadStep, handleAudioFrame, if_pos hl]
          · linarith [hte.1]
      · refine ih _ ?_ ?_ hts2
        · simpa [vadStep, handleAudioFrame, if_neg hl] using hs
        · exact ⟨d, by simpa [vadStep, handleAudioFrame, if_neg hl] using hdt, hdge⟩
    | timerFire t =>
      simp only [eventTime] at hte
      have hne : s.silenceTimer ≠ some t := by
        rw [hdt]
        intro hc
        have hdtt : d = t := by injection hc
        rw [hdtt] at hdge
        linarith [hte.2]
      refine ih _ ?_ ?_ hts2
      · simpa [vadStep, handleSilenceTimer, if_neg hne] using hs
      · exact ⟨d, by simpa [vadStep, handleSilenceTimer, if_neg hne] using hdt, hdge⟩

/-- Claim C7: a frame whose RMS energy exceeds the threshold immediately sets
speaking and re-arms the silence countdown; a frame at or below the threshold
changes neither the flag nor the timer; after a loud frame at `t0`, speaking
stays true through any events occurring before `t0 + VAD_SILENCE_TIMEOUT`;
the armed timer firing at its deadline sets speaking false; and a firing that
does not match the armed deadline — the timer was cleared and re-armed by an
intervening loud frame — changes nothing. -/
theorem vad_debounce :
    (∀ (s : CtrlState) (t : ℚ) (f : List ℚ), frameLoud f = true →
        (handleAudioFrame s t f).isSpeaking = true
        ∧ (handleAudioFrame s t f).silenceTimer = some (t + VAD_SILENCE_TIMEOUT))
    ∧ (∀ (s : CtrlState) (t : ℚ) (f : List ℚ), frameLoud f = false →
        (handleAudioFrame s t f).isSpeaking = s.isSpeaking
        ∧ (handleAudioFrame s t f).silenceTimer = s.silenceTimer)
    ∧ (∀ (s : CtrlState) (t0 : ℚ) (f : List ℚ) (es : List VadEvent),
        frameLoud f = true →
        (∀ e ∈ es, t0 ≤ eventTime e ∧ eventTime e < t0 + VAD_SILENCE_TIMEOUT) →
        (vadRun (handleAudioFrame s t0 f) es).isSpeaking = true)
    ∧ (∀ (s : CtrlState) (t : ℚ), s.silenceTimer = some t →
        (handleSilenceTimer s t).isSpeaking = false)
    ∧ (∀ (s : CtrlState) (t : ℚ), s.silenceTimer ≠ some t →
        handleSilenceTimer s t = s) := by
  refine ⟨?_, ?_, ?_, ?_, ?_⟩
  · intro s t f hf
    have hl : (f.map fun x => x * x).sum * 10000 > (f.length : ℚ) :=
      of_decide_eq_true hf
    exact ⟨by simp [handleAudioFrame, if_pos hl], by simp [handleAudioFrame, if_pos hl]⟩
  · intro s t f hf
    have hl : ¬ ((f.map fun x => x * x).sum * 10000 > (f.length : ℚ)) :=
      of_decide_eq_false hf
    exact ⟨by simp [handleAudioFrame, if_neg hl], by simp [handleAudioFrame, if_neg hl]⟩
  · intro s t0 f es hf hes
    have hl : (f.map fun x => x * x).sum * 10000 > (f.length : ℚ) :=
      of_decide_eq_true hf
    refine vad_invariant es t0 _ ?_ ⟨t0 + VAD_SILENCE_TIMEOUT, ?_, le_refl _⟩ hes
    · simp [handleAudioFrame, if_pos hl]
    · simp [handleAudioFrame, if_pos hl]
  · intro s t h
    simp [handleSilenceTimer, if_pos h]
  · intro s t h
    simp [handleSilenceTimer, if_neg h]

/-- Witness for C7: concrete loud and quiet frames, a timer firing inside the
debounce window that does not end speaking, and a matching expiry that does. -/
theorem vad_debounce_witness :
    frameLoud loudFrame = true
    ∧ frameLoud quietFrame = false
    ∧ (handleAudioFrame initState 0 loudFrame).isSpeaking = true
    ∧ (handleAudioFrame initState 0 quietFrame).isSpeaking = initState.isSpeaking
    ∧ (∀ e ∈ [VadEvent.timerFire 100],
        (0 : ℚ) ≤ eventTime e ∧ eventTime e < 0 + VAD_SILENCE_TIMEOUT)
    ∧ (vadRun (handleAudioFrame initState 0 loudFrame)
        [VadEvent.timerFire 100]).isSpeaking = true
    ∧ ({ initState with silenceTimer := some 5 } : CtrlState).silenceTimer = some 5
    ∧ (handleSilenceTimer { initState with silenceTimer := some 5 } 5).isSpeaking = false
    ∧ initState.silenceTimer ≠ some 5
    ∧ handleSilenceTimer initState 5 = initState := by
  have hl : frameLoud loudFrame = true := by
    simp [frameLoud, loudFrame]
  have hq : frameLoud quietFrame = false := by
    simp [frameLoud, quietFrame]
  have hes : ∀ e ∈ [VadEvent.timerFire 100],
      (0 : ℚ) ≤ eventTime e ∧ eventTime e < 0 + VAD_SILENCE_TIMEOUT := by
    intro e he
    simp only [List.mem_singleton] at he
    subst he
    norm_num [eventTime, VAD_SILENCE_TIMEOUT]
  refine ⟨hl, hq, (vad_debounce.1 initState 0 loudFrame hl).1,
    (vad_debounce.2.1 initState 0 quietFrame hq).1, hes,
    vad_debounce.2.2.1 initState 0 loudFrame [VadEvent.timerFire 100] hl hes,
    rfl,
    vad_debounce.2.2.2.1 { initState with silenceTimer := some 5 } 5 rfl,
    by simp [initState],
    vad_debounce.2.2.2.2 initState 5 (by simp [initState])⟩

/-! ## Claim C8: remote close transition -/

/-- Claim C8: a remote close moves the status to idle exactly when the status
at handling time is connected or connecting; when it is already idle or
error, the close leaves the state untouched. -/
theorem close_only_from_live (s : CtrlState) :
    ((s.status = Status.connected ∨ s.status = Status.connecting) →
        (handleClose s).status = Status.idle)
    ∧ ((s.status = Status.idle ∨ s.status = Status.error) → handleClose s = s) := by
  constructor
  · intro h
    simp [handleClose, h]
  · intro h
    have hn : ¬ (s.status = Status.connected ∨ s.status = Status.connecting) := by
      rcases h with h | h <;> simp [h]
    simp [handleClose, hn]

/-- Witness for C8: a close while connected yields idle, and a close on the
idle initial state changes nothing. -/
theorem close_only_from_live_witness :
    (handleClose playingState).status = Status.idle
    ∧ handleClose initState = initState :=
  ⟨(close_only_from_live playingState).1 (Or.inl rfl),
   (close_only_from_live initState).2 (Or.inl rfl)⟩

/-! ## Claim C9: disconnect idempotence -/

/-- Claim C9: disconnect is total in every state — every release step is
guarded in the source, so the embedding is a total function — and running it
twice in a row leaves the status idle after each call; the second run changes
nothing at all. -/
theorem disconnect_idempotent (s : CtrlState) :
    (handleDisconnect s).status = Status.idle
    ∧ (handleDisconnect (handleDisconnect s)).status = Status.idle
    ∧ handleDisconnect (handleDisconnect s) = handleDisconnect s := by
  refine ⟨rfl, rfl, ?_⟩
  simp [handleDisconnect, cleanup]

/-! ## Claim C10: connect resets the conversation -/

/-- Claim C10: a connect initiated from idle or error clears the committed
transcript, both pending accumulators and the speaking flag before the
session is opened. -/
theorem connect_resets_conversation (s : CtrlState)
    (h : s.status = Status.idle ∨ s.status = Status.error) :
    (handleConnect s true).transcript = []
    ∧ (handleConnect s true).currentInput = ""
    ∧ (handleConnect s true).currentOutput = ""
    ∧ (handleConnect s true).isSpeaking = false := by
  have hn : ¬ (s.status = Status.connected ∨ s.status = Status.connecting) := by
    rcases h with h | h <;> simp [h]
  simp [handleConnect, hn]

/-- Witness for C10 at a state holding a stale conversation. -/
theorem connect_resets_conversation_witness :
    (staleState.status = Status.idle ∨ staleState.status = Status.error)
    ∧ (handleConnect staleState true).transcript = []
    ∧ (handleConnect staleState true).currentInput = ""
    ∧ (handleConnect staleState true).currentOutput = ""
    ∧ (handleConnect staleState true).isSpeaking = false := by
  refine ⟨Or.inl rfl, ?_⟩
  exact connect_resets_conversation staleState (Or.inl rfl)

end VoiceChat
